import Mathlib

/-!
Verification of the option-position pricing and gain/loss engine of the
Financial-app repository, against its natural-language specification.

The embedding is shallow: each TypeScript function of the pricing core is
translated to a Lean definition over `ℚ` (JS numbers carry exact decimal
values in every scenario of interest here), `Option ℚ` models a possibly
`undefined` number, and the impure parts (the in-memory closing-price map,
the persisted closing-price cache writes) are made explicit state that is
threaded through the pass.

Source files embedded:
- `src/utils/optionCalculations.ts` (active revision): `calculateCost`,
  `calculateCurrent`, `calculateTodayGainLoss`, `calculateTotalGainLoss`,
  `buildYahooOptionSymbol`, `getCurrentPriceForCalculation`.
- `src/hooks/useOptions.ts`: `calculateOptionWithPricing` and the pricing
  part of `updateOptionsWithPricingData` (closing-price derivation loop,
  valuation map, chart-API fallback), with the external fetches
  (`batchGetLastTradingDayChange`) passed in as data.
- `src/utils/marketHours.ts`: the holiday table, `isWeekend`,
  `isMarketHoliday`, `getLastTradingDay`, over calendar dates represented
  by their serial day number.
- `src/services/YahooFinanceService.ts`: `shouldRefreshClosingPrices` /
  `markClosingPricesFetched`, over an explicit stored-timestamp state.
-/

/-- `OptionType` from `src/types/Option.ts`: the three supported position
kinds (`'SELL_PUT' | 'BUY_CALL' | 'BUY_PUT'`). -/
inductive OptionType where
  | SELL_PUT : OptionType
  | BUY_CALL : OptionType
  | BUY_PUT : OptionType
deriving DecidableEq, Repr

/-- An amount/percent pair, the shape `{ amount, percent }` returned by the
gain/loss calculators. -/
structure GainLoss where
  amount : ℚ
  percent : ℚ
deriving DecidableEq, Repr

/-- A calendar date as carried by the `expirationDate : string` field
(`"YYYY-MM-DD"`); modeled structurally. The source splits the ISO string on
`'-'`; for a well-formed ISO date the three parts are exactly the zero-padded
decimal renderings of these fields. -/
structure ExpDate where
  year : ℕ
  month : ℕ
  day : ℕ
deriving DecidableEq, Repr

/-- The fields of an `Option` position record (from `src/types/Option.ts`)
that the pricing engine reads.  `quantity` is kept in `ℚ` as JS numbers are
untyped; the stored invariant is that it is a positive integer. -/
structure OptionPosition where
  id : String
  symbol : String
  optionType : OptionType
  quantity : ℚ
  optionPrice : ℚ
  strikePrice : ℚ
  expirationDate : ExpDate
deriving DecidableEq, Repr

/-- One quote snapshot from the options-chain feed (the `priceData` values
in `useOptions.ts`); every field may be `undefined`. -/
structure PriceData where
  bid : Option ℚ
  ask : Option ℚ
  lastPrice : Option ℚ
  change : Option ℚ
  percentChange : Option ℚ
deriving DecidableEq, Repr

/-- Result of `YahooFinanceService.getLastTradingDayChange` (the chart-API
fallback): the fields `useOptions.ts` consumes. -/
structure ChartChange where
  change : ℚ
  percentChange : ℚ
  previousClose : ℚ
deriving DecidableEq, Repr

/-- JS truthiness-plus-positivity test `x !== undefined && x > 0`, the guard
used at every step of the price fallback chains. -/
def isPosOpt : Option ℚ → Bool
  | some x => decide (0 < x)
  | none => false

/-- `calculateCost` (`optionCalculations.ts`):
`optionPrice * quantity * 100`. -/
def calculateCost (optionPrice quantity : ℚ) : ℚ :=
  optionPrice * quantity * 100

/-- `calculateCurrent` (`optionCalculations.ts`, active revision): select a
price — ask-first for `SELL_PUT`, bid-first otherwise, then `lastPrice`,
then `closingPrice`, else `0` — scale by `quantity * 100`, and negate for
`SELL_PUT`. -/
def calculateCurrent (bid ask lastPrice closingPrice : Option ℚ)
    (quantity : ℚ) (optionType : OptionType) : ℚ :=
  let price : ℚ :=
    if optionType = OptionType.SELL_PUT then
      if isPosOpt ask then ask.getD 0
      else if isPosOpt lastPrice then lastPrice.getD 0
      else if isPosOpt closingPrice then closingPrice.getD 0
      else 0
    else
      if isPosOpt bid then bid.getD 0
      else if isPosOpt lastPrice then lastPrice.getD 0
      else if isPosOpt closingPrice then closingPrice.getD 0
      else 0
  let value := price * quantity * 100
  if optionType = OptionType.SELL_PUT then -value else value

/-- `calculateTodayGainLoss` (`optionCalculations.ts`): signed day change of
the position value against the closing baseline, with the percent guarded
against a zero closing value. -/
def calculateTodayGainLoss (currentPrice closingPrice quantity : ℚ)
    (optionType : OptionType) : GainLoss :=
  let closingValue := closingPrice * quantity * 100
  let currentValue := currentPrice * quantity * 100
  let amount :=
    if optionType = OptionType.SELL_PUT then closingValue - currentValue
    else currentValue - closingValue
  let percent := if closingValue ≠ 0 then amount / closingValue * 100 else 0
  ⟨amount, percent⟩

/-- `calculateTotalGainLoss` (`optionCalculations.ts`, active revision):
`cost + currentValue` for `SELL_PUT` (whose `currentValue` is already
negative), `currentValue - cost` otherwise, with the percent guarded against
zero cost. -/
def calculateTotalGainLoss (currentValue cost : ℚ)
    (optionType : OptionType) : GainLoss :=
  let amount :=
    if optionType = OptionType.SELL_PUT then cost + currentValue
    else currentValue - cost
  let percent := if cost ≠ 0 then amount / cost * 100 else 0
  ⟨amount, percent⟩

/-- `getCurrentPriceForCalculation` (`optionCalculations.ts`, active
revision): the price-source selector — ask for `SELL_PUT`, bid otherwise,
falling back to `lastPrice`, then `closingPrice`, then `0`. -/
def getCurrentPriceForCalculation (bid ask lastPrice closingPrice : Option ℚ)
    (optionType : OptionType) : ℚ :=
  if optionType = OptionType.SELL_PUT ∧ isPosOpt ask then ask.getD 0
  else if optionType ≠ OptionType.SELL_PUT ∧ isPosOpt bid then bid.getD 0
  else if isPosOpt lastPrice then lastPrice.getD 0
  else if isPosOpt closingPrice then closingPrice.getD 0
  else 0

/-- Fixed-width decimal rendering: the `w` low decimal digits of `n`, most
significant first.  For `n < 10^w` this is exactly what
`n.toString().padStart(w, '0')` produces in JS (and what `year.slice(2)`,
the ISO month/day parts, and the 8-digit strike field of the contract id
are). -/
def natToPadded : ℕ → ℕ → List Char
  | 0, _ => []
  | w + 1, n => natToPadded w (n / 10) ++ [Char.ofNat (48 + n % 10)]

/-- JS `Math.round` on a nonnegative quantity: `⌊x + 1/2⌋`, clamped into
`ℕ` (strikes are positive by the position invariant). -/
def jsRound (x : ℚ) : ℕ := (⌊x + 1 / 2⌋).toNat

/-- `buildYahooOptionSymbol` (`optionCalculations.ts`): the contract id
`{symbol}{YY}{MM}{DD}{C|P}{strike*1000 zero-padded to 8 digits}`, with `C`
for `BUY_CALL` and `P` otherwise.  The source splits the ISO expiration
string and reuses its parts verbatim; here the date is structural, so the
parts are re-rendered as 2-digit fields (`{YY}` is `year.slice(2)`, i.e.
`year % 100` for a 4-digit year). -/
def buildYahooOptionSymbol (symbol : String) (strike : ℚ) (expiration : ExpDate)
    (optionType : OptionType) : String :=
  ⟨symbol.data
    ++ natToPadded 2 (expiration.year % 100)
    ++ natToPadded 2 expiration.month
    ++ natToPadded 2 expiration.day
    ++ [if optionType = OptionType.BUY_CALL then 'C' else 'P']
    ++ natToPadded 8 (jsRound (strike * 1000))⟩

/-- The valued position produced by one pricing pass: `OptionWithPricing`
from `src/types/Option.ts`, restricted to the fields the engine writes. -/
structure OptionWithPricing where
  position : OptionPosition
  closingPrice : Option ℚ
  currentPrice : ℚ
  bid : Option ℚ
  ask : Option ℚ
  lastPrice : Option ℚ
  cost : ℚ
  currentValue : ℚ
  todayGainLoss : GainLoss
  totalGainLoss : GainLoss
  isLastTradingDay : Bool
deriving DecidableEq, Repr

/-- The effective closing price computed at the top of
`calculateOptionWithPricing` (`useOptions.ts`): the cached close when
present and `> 0`; else `lastPrice - change` when both quote fields are
defined, kept only if `> 0`; else absent. -/
def effectiveClosingPrice (closingPrice : Option ℚ)
    (priceData : Option PriceData) : Option ℚ :=
  if isPosOpt closingPrice then closingPrice
  else
    match priceData.bind PriceData.lastPrice, priceData.bind PriceData.change with
    | some l, some c => if l - c ≤ 0 then none else some (l - c)
    | _, _ => none

/-- `calculateOptionWithPricing` (`useOptions.ts`): one position valued
against one quote snapshot, a cached closing price, and the market state.
`marketClosed` is the (negated) `isMarketOpen()` flag the caller passes. -/
def calculateOptionWithPricing (option : OptionPosition)
    (priceData : Option PriceData) (closingPrice : Option ℚ)
    (marketClosed : Bool) : OptionWithPricing :=
  let bid := priceData.bind PriceData.bid
  let ask := priceData.bind PriceData.ask
  let last := priceData.bind PriceData.lastPrice
  let change := priceData.bind PriceData.change
  let percentChange := priceData.bind PriceData.percentChange
  let cost := calculateCost option.optionPrice option.quantity
  let effClose := effectiveClosingPrice closingPrice priceData
  -- `effectiveClosingPrice || option.optionPrice`: the entry price is the
  -- ultimate fallback slot passed into the price selectors.
  let closingArg : Option ℚ := some (effClose.getD option.optionPrice)
  let currentPrice :=
    getCurrentPriceForCalculation bid ask last closingArg option.optionType
  let currentValue :=
    calculateCurrent bid ask last closingArg option.quantity option.optionType
  let sellPut := option.optionType = OptionType.SELL_PUT
  let fromChange : ℚ → GainLoss := fun c =>
    ⟨(if sellPut then -(c * option.quantity * 100) else c * option.quantity * 100),
      (match percentChange with
        | some pc => if sellPut then -pc else pc
        | none => 0)⟩
  let todayGainLoss : GainLoss :=
    if marketClosed then
      match change with
      | some c =>
        if c ≠ 0 then fromChange c
        else
          match last, effClose with
          | some l, some e =>
            if l ≠ 0 ∧ 0 < e ∧ 1 / 1000 < |l - e| then
              calculateTodayGainLoss l e option.quantity option.optionType
            else ⟨0, 0⟩
          | _, _ => ⟨0, 0⟩
      | none =>
        match last, effClose with
        | some l, some e =>
          if l ≠ 0 ∧ 0 < e ∧ 1 / 1000 < |l - e| then
            calculateTodayGainLoss l e option.quantity option.optionType
          else ⟨0, 0⟩
        | _, _ => ⟨0, 0⟩
    else
      match change with
      | some c =>
        if 0 < currentPrice then fromChange c
        else
          match effClose with
          | some e =>
            if 0 < e ∧ 0 < currentPrice then
              calculateTodayGainLoss currentPrice e option.quantity option.optionType
            else ⟨0, 0⟩
          | none => ⟨0, 0⟩
      | none =>
        match effClose with
        | some e =>
          if 0 < e ∧ 0 < currentPrice then
            calculateTodayGainLoss currentPrice e option.quantity option.optionType
          else ⟨0, 0⟩
        | none => ⟨0, 0⟩
  let totalGainLoss := calculateTotalGainLoss currentValue cost option.optionType
  { position := option
    closingPrice := effClose
    currentPrice := currentPrice
    bid := bid
    ask := ask
    lastPrice := last
    cost := cost
    currentValue := currentValue
    todayGainLoss := todayGainLoss
    totalGainLoss := totalGainLoss
    isLastTradingDay := marketClosed }

/-- The contract id under which a position's closing price is cached:
`buildYahooOptionSymbol` applied to the position's own fields (inlined at
each use site in `useOptions.ts`). -/
def positionContractId (o : OptionPosition) : String :=
  buildYahooOptionSymbol o.symbol o.strikePrice o.expirationDate o.optionType

/-- Point update of the in-memory closing-price map
(`closingPricesRef.current.set`). -/
def setClosing (ref : String → Option ℚ) (k : String) (v : ℚ) :
    String → Option ℚ :=
  fun x => if x = k then some v else ref x

/-- One iteration of the closing-price derivation loop at the top of
`updateOptionsWithPricingData` (`useOptions.ts`).  State: the in-memory map
`closingPricesRef.current` and the list of `service.saveClosingPrice` calls
issued so far.  When the quote has a positive `lastPrice`: a nonzero
`change` derives `previousClose = lastPrice - change` and, if positive and
different from the cached value, both stores it in the map and persists it;
otherwise, when nothing is cached yet, `lastPrice` is persisted as a
baseline **without** entering the in-memory map. -/
def deriveClosingStep (priceLookup : String → Option PriceData)
    (st : (String → Option ℚ) × List (String × ℚ)) (o : OptionPosition) :
    (String → Option ℚ) × List (String × ℚ) :=
  let sym := positionContractId o
  let prices := priceLookup o.id
  let cached := st.1 sym
  match prices.bind PriceData.lastPrice with
  | some l =>
    if 0 < l then
      match prices.bind PriceData.change with
      | some c =>
        if c ≠ 0 then
          let prev := l - c
          if 0 < prev ∧ some prev ≠ cached then
            (setClosing st.1 sym prev, st.2 ++ [(sym, prev)])
          else st
        else if cached = none ∨ cached = some 0 then (st.1, st.2 ++ [(sym, l)])
        else st
      | none =>
        if cached = none ∨ cached = some 0 then (st.1, st.2 ++ [(sym, l)])
        else st
    else st
  | none => st

/-- One iteration of the chart-API fallback map in
`updateOptionsWithPricingData` (`useOptions.ts`): for a valued position
whose contract has chart data and whose today gain/loss is still exactly
zero, replace the today figures with the chart-derived change (sign-flipped
for `SELL_PUT`), mark it `isLastTradingDay`, and persist/remember the
chart's `previousClose` when positive. -/
def chartFallbackStep (chartData : String → Option ChartChange)
    (st : List OptionWithPricing × (String → Option ℚ) × List (String × ℚ))
    (o : OptionWithPricing) :
    List OptionWithPricing × (String → Option ℚ) × List (String × ℚ) :=
  let sym := positionContractId o.position
  match chartData sym with
  | some cd =>
    if o.todayGainLoss.amount = 0 then
      let changePerContract := cd.change * o.position.quantity * 100
      let sellPut := o.position.optionType = OptionType.SELL_PUT
      let amount := if sellPut then -changePerContract else changePerContract
      let percent := if sellPut then -cd.percentChange else cd.percentChange
      let st2 :=
        if 0 < cd.previousClose then
          (setClosing st.2.1 sym cd.previousClose,
            st.2.2 ++ [(sym, cd.previousClose)])
        else st.2
      (st.1 ++ [{ o with todayGainLoss := ⟨amount, percent⟩,
                         isLastTradingDay := true }],
        st2)
    else (st.1 ++ [o], st.2)
  | none => (st.1 ++ [o], st.2)

/-- The pricing part of `updateOptionsWithPricingData` (`useOptions.ts`):
given the position list, the fetched quote map (`priceLookup`, keyed by
position id), the in-memory closing-price map, the market state, and the
chart API's responses (`chartFetch`, keyed by contract id — the external
result of `batchGetLastTradingDayChange`), it returns the published valued
positions, the final in-memory map, and the list of persisted
closing-price writes, in order.  The derivation loop runs first; the
valuation map consults the in-memory map as left by that loop; the chart
fallback runs only while the market is closed, only for positions that
still show exactly zero today gain/loss with a positive `lastPrice`, and
only when the chart fetch returned data for at least one of them. -/
def updateOptionsWithPricingData (optionsList : List OptionPosition)
    (priceLookup : String → Option PriceData)
    (closingPricesRef : String → Option ℚ) (marketClosed : Bool)
    (chartFetch : String → Option ChartChange) :
    List OptionWithPricing × (String → Option ℚ) × List (String × ℚ) :=
  if optionsList.isEmpty then ([], closingPricesRef, [])
  else
    let st := optionsList.foldl (deriveClosingStep priceLookup)
      (closingPricesRef, [])
    let priced := optionsList.map fun o =>
      calculateOptionWithPricing o (priceLookup o.id)
        (st.1 (positionContractId o)) marketClosed
    if marketClosed then
      let zeroGain := priced.filter fun o =>
        decide (o.todayGainLoss.amount = 0) && isPosOpt o.lastPrice
      let requested := zeroGain.map fun o => positionContractId o.position
      -- `chartChanges` holds responses only for the requested contracts.
      let chartChanges : String → Option ChartChange := fun s =>
        if s ∈ requested then chartFetch s else none
      if !zeroGain.isEmpty && requested.any fun s => (chartFetch s).isSome then
        let final := priced.foldl (chartFallbackStep chartChanges)
          ([], st.1, st.2)
        final
      else (priced, st)
    else (priced, st)

/-- Serial day number of a Gregorian calendar date (days since 0000-03-01,
Hinnant's civil-from-days construction in pure `ℕ`, valid for `y ≥ 1`);
`daysFromCivil 1970 1 1 = 719468`.  JS `Date` day arithmetic
(`d.setDate(d.getDate() - 1)`) is decrement of this serial number. -/
def daysFromCivil (y m d : ℕ) : ℕ :=
  let yAdj := if m ≤ 2 then y - 1 else y
  let era := yAdj / 400
  let yoe := yAdj % 400
  let doy := (153 * ((m + 9) % 12) + 2) / 5 + (d - 1)
  let doe := yoe * 365 + yoe / 4 - yoe / 100 + doy
  era * 146097 + doe

/-- Day of week of a serial day number, in JS `Date.getDay` numbering
(0 = Sunday … 6 = Saturday); anchored by 1970-01-01 (serial 719468) being a
Thursday. -/
def dayOfWeekNum (n : ℤ) : ℤ := (n + 3) % 7

/-- `isWeekend` (`marketHours.ts`): the date's `getDay()` is Sunday or
Saturday. -/
def isWeekendNum (n : ℤ) : Bool :=
  dayOfWeekNum n == 0 || dayOfWeekNum n == 6

/-- `ALL_HOLIDAYS` (`marketHours.ts`): the NYSE/NASDAQ holiday dates
configured for 2025, 2026 and 2027, as serial day numbers. -/
def marketHolidays : List ℤ :=
  [(daysFromCivil 2025 1 1 : ℕ), daysFromCivil 2025 1 20,
    daysFromCivil 2025 2 17, daysFromCivil 2025 4 18,
    daysFromCivil 2025 5 26, daysFromCivil 2025 6 19,
    daysFromCivil 2025 7 4, daysFromCivil 2025 9 1,
    daysFromCivil 2025 11 27, daysFromCivil 2025 12 25,
    daysFromCivil 2026 1 1, daysFromCivil 2026 1 19,
    daysFromCivil 2026 2 16, daysFromCivil 2026 4 3,
    daysFromCivil 2026 5 25, daysFromCivil 2026 6 19,
    daysFromCivil 2026 7 3, daysFromCivil 2026 9 7,
    daysFromCivil 2026 11 26, daysFromCivil 2026 12 25,
    daysFromCivil 2027 1 1, daysFromCivil 2027 1 18,
    daysFromCivil 2027 2 15, daysFromCivil 2027 3 26,
    daysFromCivil 2027 5 31, daysFromCivil 2027 6 18,
    daysFromCivil 2027 7 5, daysFromCivil 2027 9 6,
    daysFromCivil 2027 11 25, daysFromCivil 2027 12 24].map Int.ofNat

/-- `isMarketHoliday` (`marketHours.ts`): membership in the configured
holiday set. -/
def isMarketHolidayNum (n : ℤ) : Bool := marketHolidays.contains n

/-- A trading day: neither a weekend nor a configured holiday (the loop
condition of `getLastTradingDay`, negated). -/
def isTradingDayNum (n : ℤ) : Bool := !isWeekendNum n && !isMarketHolidayNum n

/-- Below every configured holiday and on a Monday there is always a
trading day, so the backward walk of `getLastTradingDay` terminates: from
any start, some earlier day (here: the nearest Monday at or below both the
start and the earliest holiday) is a trading day. -/
theorem exists_trading_day_below (d : ℤ) :
    ∃ k : ℕ, isTradingDayNum (d - 1 - k) = true := by
  have hmin : ∀ h ∈ marketHolidays, ((daysFromCivil 2025 1 1 : ℕ) : ℤ) ≤ h := by
    decide
  obtain ⟨b, hb1, hb2⟩ :
      ∃ b : ℤ, b ≤ d - 1 ∧ b ≤ ((daysFromCivil 2025 1 1 : ℕ) : ℤ) - 1 :=
    ⟨min (d - 1) (((daysFromCivil 2025 1 1 : ℕ) : ℤ) - 1),
      min_le_left _ _, min_le_right _ _⟩
  obtain ⟨t, ht1, ht2, ht3⟩ :
      ∃ t : ℤ, t ≤ b ∧ b - 6 ≤ t ∧ (t + 3) % 7 = 1 :=
    ⟨b - (b - 5) % 7, by omega, by omega, by omega⟩
  have hweekend : isWeekendNum t = false := by
    simp only [isWeekendNum, dayOfWeekNum, ht3]
    decide
  have hholiday : isMarketHolidayNum t = false := by
    rw [isMarketHolidayNum]
    by_contra hc
    rw [Bool.not_eq_false] at hc
    have hmem : t ∈ marketHolidays := by simpa using hc
    have := hmin t hmem
    omega
  refine ⟨(d - 1 - t).toNat, ?_⟩
  have hcast : ((d - 1 - t).toNat : ℤ) = d - 1 - t :=
    Int.toNat_of_nonneg (by omega)
  rw [isTradingDayNum, hcast]
  have heq : d - 1 - (d - 1 - t) = t := by ring
  rw [heq, hweekend, hholiday]
  rfl

/-- `getLastTradingDay` (`marketHours.ts`): step back one calendar day,
then keep stepping back while the day is a weekend or configured holiday.
The first trading day at or below `d - 1` (the while loop's exit point) is
`d - 1 - k` for the least `k` with `isTradingDayNum (d - 1 - k)`. -/
def getLastTradingDay (d : ℤ) : ℤ :=
  d - 1 - Nat.find (exists_trading_day_below d)

/-- `shouldRefreshClosingPrices` (`YahooFinanceService.ts`): with the
stored last-fetch timestamp made explicit (`none` models a missing
`localStorage` entry), refresh when nothing is stored or when more than
20 hours (in milliseconds) have elapsed. -/
def shouldRefreshClosingPrices (now : ℤ) (stored : Option ℤ) : Bool :=
  match stored with
  | none => true
  | some lastFetchTime => decide (20 * 60 * 60 * 1000 < now - lastFetchTime)

/-- `markClosingPricesFetched` (`YahooFinanceService.ts`): store the
current timestamp as the last-fetch mark. -/
def markClosingPricesFetched (now : ℤ) : Option ℤ := some now

/-- Split off the last `n` elements of a list (used by the contract-id
parser to read the fixed-width fields from the right). -/
def splitLastN (n : ℕ) (l : List Char) : List Char × List Char :=
  (l.take (l.length - n), l.drop (l.length - n))

/-- Read a digit string as a number (the inverse of `natToPadded`). -/
def natFromChars (cs : List Char) : ℕ :=
  cs.foldl (fun acc c => acc * 10 + (c.toNat - 48)) 0

/-- Modelled from the spec: `parseContractId` — §8's round-trip property
presumes an inverse of the §6 contract-id format
`{underlyingSymbol}{YY}{MM}{DD}{C|P}{strike*1000 zero-padded to 8 digits}`,
but no parser is present under `src/`.  Faithful to the spec's format, the
fixed-width fields are read from the right: 8 strike digits (value
`strike × 1000`), one `C`/`P` flag (returned as an is-call boolean), six
date digits (`YY` read into century 20), and the remaining prefix is the
underlying symbol. -/
def parseContractId (s : String) :
    Option (String × ℚ × ExpDate × Bool) :=
  let cs := s.data
  if cs.length < 16 then none
  else
    let p1 := splitLastN 8 cs
    let p2 := splitLastN 1 p1.1
    let p3 := splitLastN 2 p2.1
    let p4 := splitLastN 2 p3.1
    let p5 := splitLastN 2 p4.1
    some (⟨p5.1⟩, (natFromChars p1.2 : ℚ) / 1000,
      ⟨2000 + natFromChars p5.2, natFromChars p4.2, natFromChars p3.2⟩,
      decide (p2.2 = ['C']))

/-- A field that passes the truthiness-positivity guard is positive. -/
lemma getD_pos_of_isPosOpt {o : Option ℚ} (h : isPosOpt o = true) :
    0 < o.getD 0 := by
  cases o with
  | none => simp [isPosOpt] at h
  | some x => simpa [isPosOpt] using h

/-- The selected price is never negative: every step of the fallback chain
yields either a guarded-positive field or the terminal `0`. -/
lemma getCurrentPriceForCalculation_nonneg
    (bid ask lastPrice closingPrice : Option ℚ) (t : OptionType) :
    0 ≤ getCurrentPriceForCalculation bid ask lastPrice closingPrice t := by
  unfold getCurrentPriceForCalculation
  split_ifs with h1 h2 h3 h4
  · exact le_of_lt (getD_pos_of_isPosOpt h1.2)
  · exact le_of_lt (getD_pos_of_isPosOpt h2.2)
  · exact le_of_lt (getD_pos_of_isPosOpt h3)
  · exact le_of_lt (getD_pos_of_isPosOpt h4)
  · exact le_refl 0

/-- `calculateCurrent` factors through the shared price selector: it is the
direction sign times `getCurrentPriceForCalculation` times
`quantity * 100`. -/
lemma calculateCurrent_eq_dir_mul
    (bid ask lastPrice closingPrice : Option ℚ) (q : ℚ) (t : OptionType) :
    calculateCurrent bid ask lastPrice closingPrice q t =
      (if t = OptionType.SELL_PUT then (-1 : ℚ) else 1) *
        getCurrentPriceForCalculation bid ask lastPrice closingPrice t *
        q * 100 := by
  unfold calculateCurrent getCurrentPriceForCalculation
  cases t <;> simp <;> split_ifs <;> ring

/-- Claim C10: the two price-selection implementations of the active engine
revision never disagree — `calculateCurrent` equals the direction sign
(−1 for `SELL_PUT`, +1 otherwise) times `getCurrentPriceForCalculation`
times `quantity × 100`, for every combination of quote fields. -/
theorem claim_C10 :
    ∀ (bid ask lastPrice closingPrice : Option ℚ) (q : ℚ) (t : OptionType),
      calculateCurrent bid ask lastPrice closingPrice q t =
        (if t = OptionType.SELL_PUT then (-1 : ℚ) else 1) *
          getCurrentPriceForCalculation bid ask lastPrice closingPrice t *
          q * 100 :=
  fun bid ask lastPrice closingPrice q t =>
    calculateCurrent_eq_dir_mul bid ask lastPrice closingPrice q t

/-- Claim C4: with a positive contract quantity and a positive selected
mark price, the current value is a liability (`≤ 0`) for `SELL_PUT` and an
asset (`≥ 0`) for `BUY_CALL`/`BUY_PUT`. -/
theorem claim_C4 :
    ∀ (bid ask lastPrice closingPrice : Option ℚ) (q : ℚ) (t : OptionType),
      0 < q →
      0 < getCurrentPriceForCalculation bid ask lastPrice closingPrice t →
      (t = OptionType.SELL_PUT →
        calculateCurrent bid ask lastPrice closingPrice q t ≤ 0) ∧
      (t ≠ OptionType.SELL_PUT →
        0 ≤ calculateCurrent bid ask lastPrice closingPrice q t) := by
  intro bid ask lastPrice closingPrice q t hq hm
  constructor
  · intro ht
    rw [calculateCurrent_eq_dir_mul, if_pos ht]
    nlinarith
  · intro ht
    rw [calculateCurrent_eq_dir_mul, if_neg ht]
    nlinarith

/-- Witness for C4 at concrete inputs: a short put quoted at ask 4 marks at
a nonpositive value; a long call quoted at bid 3 marks at a nonnegative
value. -/
theorem claim_C4_witness :
    calculateCurrent none (some 4) none none 2 OptionType.SELL_PUT ≤ 0 ∧
      0 ≤ calculateCurrent (some 3) none none none 1 OptionType.BUY_CALL := by
  constructor
  · exact (claim_C4 none (some 4) none none 2 OptionType.SELL_PUT (by norm_num)
      (by norm_num [getCurrentPriceForCalculation, isPosOpt])).1 rfl
  · exact (claim_C4 (some 3) none none none 1 OptionType.BUY_CALL (by norm_num)
      (by simp [getCurrentPriceForCalculation, isPosOpt])).2 (by simp)

/-- Claim C5: for every position and every quote/cache/market state, the
cost reported by a pricing pass is exactly
`entryPricePerShare × contractQuantity × 100`, independent of the position
kind. -/
theorem claim_C5 :
    ∀ (o : OptionPosition) (pd : Option PriceData) (cp : Option ℚ)
      (mc : Bool),
      (calculateOptionWithPricing o pd cp mc).cost =
        o.optionPrice * o.quantity * 100 := by
  intro o pd cp mc
  rfl

/-- Claim C2: `totalGainLoss.amount` is `cost + currentValue` for
`SELL_PUT` and `currentValue − cost` otherwise, `totalGainLoss.percent` is
`amount / cost × 100` (for nonzero cost), and on the spec's concrete
scenario — SellPut, quantity 2, entry 3.50, quote ask 4.00 — the engine
reports cost 700, currentValue −800 and totalGainLoss
{amount −100, percent −100/7 = −14.2857…}. -/
theorem claim_C2 :
    (∀ (currentValue cost : ℚ) (t : OptionType),
        (calculateTotalGainLoss currentValue cost t).amount =
          (if t = OptionType.SELL_PUT then cost + currentValue
            else currentValue - cost) ∧
        (cost ≠ 0 →
          (calculateTotalGainLoss currentValue cost t).percent =
            (calculateTotalGainLoss currentValue cost t).amount / cost
              * 100)) ∧
    calculateCost (3.5 : ℚ) 2 = 700 ∧
    calculateCurrent none (some 4) none none 2 OptionType.SELL_PUT = -800 ∧
    calculateTotalGainLoss
        (calculateCurrent none (some 4) none none 2 OptionType.SELL_PUT)
        (calculateCost (3.5 : ℚ) 2) OptionType.SELL_PUT =
      ⟨-100, -100 / 7⟩ := by
  refine ⟨?_, ?_, ?_, ?_⟩
  · intro currentValue cost t
    constructor
    · simp [calculateTotalGainLoss]
    · intro hc
      simp [calculateTotalGainLoss, hc]
  · norm_num [calculateCost]
  · norm_num [calculateCurrent, isPosOpt]
  · norm_num [calculateCurrent, calculateCost, calculateTotalGainLoss, isPosOpt]

/-- Witness for C2's guarded-percent clause at the scenario's numbers. -/
theorem claim_C2_witness :
    (calculateTotalGainLoss (-800) 700 OptionType.SELL_PUT).percent =
      (calculateTotalGainLoss (-800) 700 OptionType.SELL_PUT).amount / 700
        * 100 :=
  (claim_C2.1 (-800) 700 OptionType.SELL_PUT).2 (by norm_num)

/-- Claim C6: both percent computations are total — in this embedding over
`ℚ` no `NaN`/infinity exists, and the division guards yield exactly `0`:
`totalGainLoss.percent` is `0` at zero cost, and `todayGainLoss.percent` is
`0` whenever the closing-value denominator (`closingPrice × quantity ×
100`) vanishes, in particular at a zero closing price. -/
theorem claim_C6 :
    (∀ (currentValue : ℚ) (t : OptionType),
        (calculateTotalGainLoss currentValue 0 t).percent = 0) ∧
    (∀ (currentPrice closingPrice q : ℚ) (t : OptionType),
        closingPrice * q * 100 = 0 →
        (calculateTodayGainLoss currentPrice closingPrice q t).percent
          = 0) := by
  constructor
  · intro currentValue t
    simp [calculateTotalGainLoss]
  · intro currentPrice closingPrice q t h
    simp [calculateTodayGainLoss, h]

/-- Witness for C6 at a zero closing price. -/
theorem claim_C6_witness :
    (calculateTodayGainLoss 5 0 2 OptionType.BUY_CALL).percent = 0 :=
  claim_C6.2 5 0 2 OptionType.BUY_CALL (by norm_num)

/-- Claim C9: the refresh predicate returns true when no refresh was ever
marked, and after a refresh marked at time `t` it returns true exactly when
more than 20 hours (in milliseconds) have elapsed. -/
theorem claim_C9 :
    (∀ now : ℤ, shouldRefreshClosingPrices now none = true) ∧
    (∀ now t : ℤ,
        shouldRefreshClosingPrices now (markClosingPricesFetched t) = true ↔
          20 * 60 * 60 * 1000 < now - t) := by
  constructor
  · intro now
    rfl
  · intro now t
    simp [shouldRefreshClosingPrices, markClosingPricesFetched]

/-- An effective closing price, when present, is positive: both of its
sources are accepted only under a `> 0` guard. -/
lemma effectiveClosingPrice_pos {cp : Option ℚ} {pd : Option PriceData}
    {e : ℚ} (h : effectiveClosingPrice cp pd = some e) : 0 < e := by
  unfold effectiveClosingPrice at h
  split_ifs at h with h1
  · cases cp with
    | none => simp [isPosOpt] at h1
    | some c =>
      simp [isPosOpt] at h1
      cases h
      exact h1
  · rcases hl : pd.bind PriceData.lastPrice with _ | l <;> rw [hl] at h
    · simp at h
    · rcases hc : pd.bind PriceData.change with _ | c <;> rw [hc] at h
      · simp at h
      · simp only [] at h
        split_ifs at h with h2
        rw [Option.some_inj] at h
        subst h
        linarith [not_le.mp h2]

/-- Counterexample to claim C1: a short put quoted bid 1 / ask 3.  The
claim's midpoint rule would mark it at `(1+3)/2 = 2`; the engine marks it
at the ask, 3. -/
theorem claim_C1_counterexample :
    (calculateOptionWithPricing
        ⟨"p1", "XYZ", OptionType.SELL_PUT, 1, 2, 100, ⟨2026, 3, 20⟩⟩
        (some ⟨some 1, some 3, none, none, none⟩) none true).currentPrice ≠
      (1 + 3) / 2 := by
  norm_num [calculateOptionWithPricing, getCurrentPriceForCalculation,
    effectiveClosingPrice, isPosOpt]

/-- Claim C1 as amended: the mark price used for valuation is chosen
direction-dependently — the ask for `SELL_PUT` and the bid for
`BUY_CALL`/`BUY_PUT`, when present and `> 0`; else `lastPrice` if `> 0`;
else the effective closing price if present (hence `> 0`); else the
position's own `entryPricePerShare` if `> 0`; else `0`. -/
theorem claim_C1_amended :
    ∀ (o : OptionPosition) (pd : Option PriceData) (cp : Option ℚ)
      (mc : Bool),
      (calculateOptionWithPricing o pd cp mc).currentPrice =
        (if o.optionType = OptionType.SELL_PUT then
          (if isPosOpt (pd.bind PriceData.ask) then
            (pd.bind PriceData.ask).getD 0
          else if isPosOpt (pd.bind PriceData.lastPrice) then
            (pd.bind PriceData.lastPrice).getD 0
          else if isPosOpt (effectiveClosingPrice cp pd) then
            (effectiveClosingPrice cp pd).getD 0
          else if 0 < o.optionPrice then o.optionPrice
          else 0)
        else
          (if isPosOpt (pd.bind PriceData.bid) then
            (pd.bind PriceData.bid).getD 0
          else if isPosOpt (pd.bind PriceData.lastPrice) then
            (pd.bind PriceData.lastPrice).getD 0
          else if isPosOpt (effectiveClosingPrice cp pd) then
            (effectiveClosingPrice cp pd).getD 0
          else if 0 < o.optionPrice then o.optionPrice
          else 0)) := by
  intro o pd cp mc
  have hcp : (calculateOptionWithPricing o pd cp mc).currentPrice =
      getCurrentPriceForCalculation (pd.bind PriceData.bid)
        (pd.bind PriceData.ask) (pd.bind PriceData.lastPrice)
        (some ((effectiveClosingPrice cp pd).getD o.optionPrice))
        o.optionType := rfl
  rw [hcp]
  unfold getCurrentPriceForCalculation
  rcases he : effectiveClosingPrice cp pd with _ | e
  · simp only [Option.getD_none, isPosOpt]
    split_ifs <;> simp_all [isPosOpt]
  · have hpos := effectiveClosingPrice_pos he
    simp only [Option.getD_some]
    have hps : isPosOpt (some e) = true := by
      simpa [isPosOpt] using hpos
    simp only [hps]
    split_ifs <;> simp_all [isPosOpt]


/-- Claim C7: for every date, the previous-trading-day walk terminates (the
function is total by construction) and returns a date strictly before the
input that is neither a weekend nor a configured holiday, and every date
strictly between the result and the input is a weekend or holiday. -/
theorem claim_C7 :
    ∀ d : ℤ,
      getLastTradingDay d < d ∧
      isTradingDayNum (getLastTradingDay d) = true ∧
      ∀ e : ℤ, getLastTradingDay d < e → e < d →
        isTradingDayNum e = false := by
  intro d
  refine ⟨?_, ?_, ?_⟩
  · unfold getLastTradingDay
    have : (0 : ℤ) ≤ (Nat.find (exists_trading_day_below d) : ℤ) :=
      Int.natCast_nonneg _
    omega
  · exact Nat.find_spec (exists_trading_day_below d)
  · intro e h1 h2
    unfold getLastTradingDay at h1
    have hj : ((d - 1 - e).toNat : ℤ) = d - 1 - e :=
      Int.toNat_of_nonneg (by omega)
    have hjk : (d - 1 - e).toNat < Nat.find (exists_trading_day_below d) := by
      omega
    have hmin := Nat.find_min (exists_trading_day_below d) hjk
    have he : d - 1 - ((d - 1 - e).toNat : ℤ) = e := by omega
    rw [he] at hmin
    simpa using hmin

/-- Witness for C7 at 2026-01-20 (a Tuesday): the previous trading day is
2026-01-16, because the 17th and 18th are a weekend and the 19th is the
configured MLK holiday. -/
theorem claim_C7_witness :
    getLastTradingDay ((daysFromCivil 2026 1 20 : ℕ) : ℤ) =
      ((daysFromCivil 2026 1 16 : ℕ) : ℤ) := by
  obtain ⟨h1, h2, h3⟩ := claim_C7 ((daysFromCivil 2026 1 20 : ℕ) : ℤ)
  have hDT : ((daysFromCivil 2026 1 20 : ℕ) : ℤ) =
      ((daysFromCivil 2026 1 16 : ℕ) : ℤ) + 4 := by decide
  have hT : isTradingDayNum ((daysFromCivil 2026 1 16 : ℕ) : ℤ) = true := by
    decide
  have hS : isTradingDayNum (((daysFromCivil 2026 1 16 : ℕ) : ℤ) + 1) = false
      ∧ isTradingDayNum (((daysFromCivil 2026 1 16 : ℕ) : ℤ) + 2) = false
      ∧ isTradingDayNum (((daysFromCivil 2026 1 16 : ℕ) : ℤ) + 3) = false := by
    refine ⟨?_, ?_, ?_⟩ <;> decide
  have hnlt : ¬ getLastTradingDay ((daysFromCivil 2026 1 20 : ℕ) : ℤ) <
      ((daysFromCivil 2026 1 16 : ℕ) : ℤ) := by
    intro hlt
    have hfalse := h3 _ hlt (by omega)
    rw [hT] at hfalse
    exact absurd hfalse (by simp)
  have hngt : ¬ ((daysFromCivil 2026 1 16 : ℕ) : ℤ) <
      getLastTradingDay ((daysFromCivil 2026 1 20 : ℕ) : ℤ) := by
    intro hgt
    have hcases : getLastTradingDay ((daysFromCivil 2026 1 20 : ℕ) : ℤ) =
          ((daysFromCivil 2026 1 16 : ℕ) : ℤ) + 1 ∨
        getLastTradingDay ((daysFromCivil 2026 1 20 : ℕ) : ℤ) =
          ((daysFromCivil 2026 1 16 : ℕ) : ℤ) + 2 ∨
        getLastTradingDay ((daysFromCivil 2026 1 20 : ℕ) : ℤ) =
          ((daysFromCivil 2026 1 16 : ℕ) : ℤ) + 3 := by
      omega
    rcases hcases with hc | hc | hc <;> rw [hc] at h2
    · rw [hS.1] at h2
      exact absurd h2 (by simp)
    · rw [hS.2.1] at h2
      exact absurd h2 (by simp)
    · rw [hS.2.2] at h2
      exact absurd h2 (by simp)
  omega

/-- Claim C3: a pricing pass run while the market is closed, on a position
whose quote has `change = 0` and `lastPrice = 5` with no cached closing
price and no chart-fallback data, publishes that position with
`todayGainLoss = {amount 0, percent 0}` and `isLastTradingDay = true`,
persists `5` to the closing-price cache as a baseline write, and leaves the
in-memory closing-price map (the one this same pass's valuation consulted)
without an entry for the contract. -/
theorem claim_C3 :
    ∀ o : OptionPosition,
      (updateOptionsWithPricingData [o]
          (fun i => if i = o.id then some ⟨none, none, some 5, some 0, none⟩
            else none)
          (fun _ => none) true (fun _ => none)).1 =
        [calculateOptionWithPricing o
          (some ⟨none, none, some 5, some 0, none⟩) none true] ∧
      (calculateOptionWithPricing o
          (some ⟨none, none, some 5, some 0, none⟩) none
          true).todayGainLoss = ⟨0, 0⟩ ∧
      (calculateOptionWithPricing o
          (some ⟨none, none, some 5, some 0, none⟩) none
          true).isLastTradingDay = true ∧
      (updateOptionsWithPricingData [o]
          (fun i => if i = o.id then some ⟨none, none, some 5, some 0, none⟩
            else none)
          (fun _ => none) true (fun _ => none)).2.2 =
        [(positionContractId o, 5)] ∧
      (updateOptionsWithPricingData [o]
          (fun i => if i = o.id then some ⟨none, none, some 5, some 0, none⟩
            else none)
          (fun _ => none) true (fun _ => none)).2.1
        (positionContractId o) = none := by
  intro o
  have htoday : (calculateOptionWithPricing o
      (some ⟨none, none, some 5, some 0, none⟩) none true).todayGainLoss
      = ⟨0, 0⟩ := by
    norm_num [calculateOptionWithPricing, effectiveClosingPrice, isPosOpt]
  refine ⟨?_, htoday, rfl, ?_, ?_⟩
  · norm_num [updateOptionsWithPricingData, deriveClosingStep, isPosOpt,
      List.filter, htoday]
  · norm_num [updateOptionsWithPricingData, deriveClosingStep, isPosOpt,
      List.filter, htoday]
  · norm_num [updateOptionsWithPricingData, deriveClosingStep, isPosOpt,
      List.filter, htoday]

/-- Fixed-width rendering has the fixed width. -/
lemma natToPadded_length (w n : ℕ) : (natToPadded w n).length = w := by
  induction w generalizing n with
  | zero => rfl
  | succ w ih => simp [natToPadded, ih]

/-- A decimal digit character decodes back to its digit. -/
lemma digitChar_toNat (d : ℕ) (h : d < 10) :
    (Char.ofNat (48 + d)).toNat = 48 + d := by
  interval_cases d <;> decide

/-- Reading a fixed-width rendering under any accumulator. -/
lemma foldl_natToPadded (w : ℕ) :
    ∀ n acc : ℕ, n < 10 ^ w →
      (natToPadded w n).foldl (fun a c => a * 10 + (c.toNat - 48)) acc =
        acc * 10 ^ w + n := by
  induction w with
  | zero =>
    intro n acc h
    simp [natToPadded]
    omega
  | succ w ih =>
    intro n acc h
    rw [natToPadded, List.foldl_append]
    have hdiv : n / 10 < 10 ^ w := by
      rw [Nat.div_lt_iff_lt_mul (by norm_num)]
      calc n < 10 ^ (w + 1) := h
        _ = 10 ^ w * 10 := by ring
    rw [ih (n / 10) acc hdiv]
    simp only [List.foldl_cons, List.foldl_nil]
    rw [digitChar_toNat (n % 10) (Nat.mod_lt n (by norm_num))]
    have hps : acc * 10 ^ (w + 1) = acc * 10 ^ w * 10 := by ring
    rw [hps]
    omega

/-- `natFromChars` inverts `natToPadded` within the width bound. -/
lemma natFromChars_natToPadded (w n : ℕ) (h : n < 10 ^ w) :
    natFromChars (natToPadded w n) = n := by
  have := foldl_natToPadded w n 0 h
  simpa [natFromChars] using this

/-- Splitting off a suffix of known length recovers both parts. -/
lemma splitLastN_append (a b : List Char) (n : ℕ) (h : b.length = n) :
    splitLastN n (a ++ b) = (a, b) := by
  unfold splitLastN
  have hl : (a ++ b).length - n = a.length := by
    simp [List.length_append, h]
  rw [hl, List.take_left, List.drop_left]

/-- Claim C8: building a contract identifier yields
`{symbol}{YY}{MM}{DD}{C|P}{strike×1000 zero-padded to 8 digits}` — in
particular `AMD260320P00160000` and `RCL270115C00057500` on the spec's two
examples — and parsing a built identifier recovers the symbol, strike,
expiration date and call/put flag exactly, for every strike that is a
multiple of 0.001 with `strike×1000 < 10^8` (the strikes the 8-digit field
can carry), every nonempty symbol, and every date with a 20xx year. -/
theorem claim_C8 :
    buildYahooOptionSymbol "AMD" 160 ⟨2026, 3, 20⟩ OptionType.SELL_PUT =
      "AMD260320P00160000" ∧
    buildYahooOptionSymbol "RCL" (57.5 : ℚ) ⟨2027, 1, 15⟩
        OptionType.BUY_CALL = "RCL270115C00057500" ∧
    ∀ (symbol : String) (strikeM y m d : ℕ) (t : OptionType),
      1 ≤ symbol.length → strikeM < 10 ^ 8 →
      2000 ≤ y → y < 2100 → 1 ≤ m → m ≤ 12 → 1 ≤ d → d ≤ 31 →
      parseContractId
          (buildYahooOptionSymbol symbol ((strikeM : ℚ) / 1000)
            ⟨y, m, d⟩ t) =
        some (symbol, (strikeM : ℚ) / 1000, ⟨y, m, d⟩,
          decide (t = OptionType.BUY_CALL)) := by
  refine ⟨?_, ?_, ?_⟩
  · have h : jsRound (160 * 1000 : ℚ) = 160000 := by
      norm_num [jsRound]
      rfl
    simp only [buildYahooOptionSymbol, h]
    decide
  · have h : jsRound ((57.5 : ℚ) * 1000) = 57500 := by
      norm_num [jsRound]
      rfl
    simp only [buildYahooOptionSymbol, h]
    decide
  intro symbol strikeM y m d t hsym hstrike hy1 hy2 hm1 hm2 hd1 hd2
  obtain ⟨sdata⟩ := symbol
  have hmul : ((strikeM : ℚ) / 1000) * 1000 = (strikeM : ℚ) := by
    field_simp
  have hfloor : ⌊(strikeM : ℚ) + 1 / 2⌋ = (strikeM : ℤ) := by
    rw [Int.floor_eq_iff]
    constructor
    · push_cast
      linarith
    · push_cast
      linarith
  have hround2 : jsRound (strikeM : ℚ) = strikeM := by
    rw [jsRound, hfloor, Int.toNat_natCast]
  have hbuild : buildYahooOptionSymbol ⟨sdata⟩ ((strikeM : ℚ) / 1000)
      ⟨y, m, d⟩ t =
      ⟨sdata ++ natToPadded 2 (y % 100) ++ natToPadded 2 m ++ natToPadded 2 d
        ++ [if t = OptionType.BUY_CALL then 'C' else 'P']
        ++ natToPadded 8 strikeM⟩ := by
    unfold buildYahooOptionSymbol
    rw [hmul, hround2]
  rw [hbuild]
  unfold parseContractId
  have hsd : 1 ≤ sdata.length := hsym
  have hlen : ¬ ((⟨sdata ++ natToPadded 2 (y % 100) ++ natToPadded 2 m
      ++ natToPadded 2 d ++ [if t = OptionType.BUY_CALL then 'C' else 'P']
      ++ natToPadded 8 strikeM⟩ : String).data.length < 16) := by
    simp only [List.length_append, natToPadded_length, List.length_singleton]
    omega
  rw [if_neg hlen]
  have h1 := splitLastN_append
    (sdata ++ natToPadded 2 (y % 100) ++ natToPadded 2 m ++ natToPadded 2 d
      ++ [if t = OptionType.BUY_CALL then 'C' else 'P'])
    (natToPadded 8 strikeM) 8 (natToPadded_length 8 strikeM)
  have h2 := splitLastN_append
    (sdata ++ natToPadded 2 (y % 100) ++ natToPadded 2 m ++ natToPadded 2 d)
    [if t = OptionType.BUY_CALL then 'C' else 'P'] 1 rfl
  have h3 := splitLastN_append
    (sdata ++ natToPadded 2 (y % 100) ++ natToPadded 2 m)
    (natToPadded 2 d) 2 (natToPadded_length 2 d)
  have h4 := splitLastN_append (sdata ++ natToPadded 2 (y % 100))
    (natToPadded 2 m) 2 (natToPadded_length 2 m)
  have h5 := splitLastN_append sdata (natToPadded 2 (y % 100)) 2
    (natToPadded_length 2 (y % 100))
  simp only [h1, h2, h3, h4, h5]
  rw [natFromChars_natToPadded 8 strikeM hstrike,
    natFromChars_natToPadded 2 (y % 100) (by omega),
    natFromChars_natToPadded 2 m (by omega),
    natFromChars_natToPadded 2 d (by omega)]
  have hyy : 2000 + y % 100 = y := by omega
  rw [hyy]
  cases t <;> rfl

/-- Witness for C8's round-trip clause at the spec's AMD example. -/
theorem claim_C8_witness :
    parseContractId (buildYahooOptionSymbol "AMD" ((160000 : ℚ) / 1000)
        ⟨2026, 3, 20⟩ OptionType.SELL_PUT) =
      some ("AMD", (160000 : ℚ) / 1000, ⟨2026, 3, 20⟩, false) := by
  have h := claim_C8.2.2 "AMD" 160000 2026 3 20 OptionType.SELL_PUT
    (by decide) (by norm_num) (by norm_num) (by norm_num) (by norm_num)
    (by norm_num) (by norm_num) (by norm_num)
  simpa using h
